import Mathlib

/-!
Verification development for the zendesk-ai-gemini webhook pipeline.

The JavaScript source (server.js and gemini.js) is shallowly embedded here:
strings become `List Char`, the two regular expressions of `redactPII` are
embedded through a small backtracking matcher with exactly the JS semantics
(greedy quantifiers tried longest first, alternatives in priority order,
ASCII word boundaries, global replace scanning left to right), and the
webhook handler becomes a pure function returning its HTTP response together
with the trace of outbound effects (Drafter calls and Zendesk posts).
-/

set_option maxRecDepth 10000

/-! ### Character classes (JS regex semantics, no /u flag: ASCII classes) -/

/-- `[0-9]`, the JS `\d` class. -/
def isDigitC (c : Char) : Bool := 48 ≤ c.toNat && c.toNat ≤ 57

/-- ASCII upper-case letter. -/
def isUpperC (c : Char) : Bool := 65 ≤ c.toNat && c.toNat ≤ 90

/-- ASCII lower-case letter. -/
def isLowerC (c : Char) : Bool := 97 ≤ c.toNat && c.toNat ≤ 122

/-- ASCII letter (the `/i` flag makes `[A-Z]` match both cases). -/
def isAlphaC (c : Char) : Bool := isUpperC c || isLowerC c

/-- The JS `\s` class: WhiteSpace plus LineTerminator code points. -/
def jsSpace (c : Char) : Bool :=
  (9 ≤ c.toNat && c.toNat ≤ 13) || c.toNat = 32 || c.toNat = 160 ||
  c.toNat = 5760 || (8192 ≤ c.toNat && c.toNat ≤ 8202) ||
  c.toNat = 8232 || c.toNat = 8233 || c.toNat = 8239 || c.toNat = 8287 ||
  c.toNat = 12288 || c.toNat = 65279

/-- The JS `\w` class, used by `\b`: `[A-Za-z0-9_]`. -/
def wordChar (c : Char) : Bool := isAlphaC c || isDigitC c || c.toNat = 95

/-- `[A-Z0-9._%+-]` with `/i`: local part of the email pattern. -/
def localCls (c : Char) : Bool :=
  isAlphaC c || isDigitC c || c.toNat = 46 || c.toNat = 95 || c.toNat = 37 ||
  c.toNat = 43 || c.toNat = 45

/-- `[A-Z0-9.-]` with `/i`: domain part of the email pattern. -/
def domCls (c : Char) : Bool :=
  isAlphaC c || isDigitC c || c.toNat = 46 || c.toNat = 45

/-- `[A-Z]{2,}` with `/i`: TLD part of the email pattern. -/
def tldCls (c : Char) : Bool := isAlphaC c

/-- `[-.\s]`: separator class of the phone pattern. -/
def sepCls (c : Char) : Bool := c.toNat = 45 || c.toNat = 46 || jsSpace c

/-- `[\d-.\s]` (Annex B: the hyphen after `\d` is a literal). -/
def phoneCls (c : Char) : Bool :=
  isDigitC c || c.toNat = 45 || c.toNat = 46 || jsSpace c

/-! ### A tiny backtracking regex engine, specialised to the two patterns

Both patterns only use: literal characters, character classes, greedy `?`,
greedy counted repetition of a class `{lo,hi}` / `{lo,}` / `+`, and `\b`.
The matcher is written in continuation-passing style; `obr` picks the first
successful alternative, which reproduces the JS backtracking priority order. -/

/-- Regex abstract syntax (sufficient for the two patterns of `redactPII`). -/
inductive RE where
  | chr (c : Char)
  | cls (p : Char → Bool)
  | wb
  | seq (a b : RE)
  | opt (a : RE)
  | rep (p : Char → Bool) (lo : Nat) (hi : Option Nat)

/-- Matcher result: the last consumed character (for `\b`) and the rest. -/
abbrev MRes := Option (Option Char × List Char)

/-- Continuation taken by the matcher. -/
abbrev MCont := Option Char → List Char → MRes

/-- First successful alternative (backtracking priority order). -/
def obr : MRes → MRes → MRes
  | some v, _ => some v
  | none, b => b

/-- Is there a word character here (`none` = outside the string)? -/
def isWordOpt : Option Char → Bool
  | none => false
  | some c => wordChar c

/-- JS `\b`: exactly one side of the position is a word character. -/
def atBoundary (prev : Option Char) (s : List Char) : Bool :=
  isWordOpt prev != isWordOpt s.head?

/-- Consume exactly `n` characters of class `p`, then continue. -/
def mandRep (p : Char → Bool) : Nat → MCont → MCont
  | 0, k => k
  | n + 1, k => fun _prev s =>
    match s with
    | [] => none
    | c :: rest => if p c then mandRep p n k (some c) rest else none

/-- Consume up to `n` characters of class `p`, greedily (longest first). -/
def optRepB (p : Char → Bool) : Nat → MCont → MCont
  | 0, k => k
  | n + 1, k => fun prev s =>
    match s with
    | [] => k prev []
    | c :: rest =>
      if p c then obr (optRepB p n k (some c) rest) (k prev s) else k prev s

/-- The matcher: try `r` at the current position, then the continuation. -/
def mX : RE → MCont → MCont
  | .chr c, k => fun _prev s =>
    match s with
    | [] => none
    | c' :: rest => if c' = c then k (some c') rest else none
  | .cls p, k => fun _prev s =>
    match s with
    | [] => none
    | c :: rest => if p c then k (some c) rest else none
  | .wb, k => fun prev s => if atBoundary prev s then k prev s else none
  | .seq a b, k => mX a (mX b k)
  | .opt a, k => fun prev s => obr (mX a k prev s) (k prev s)
  | .rep p lo hi, k => fun prev s =>
    mandRep p lo
      (fun prev' s' =>
        match hi with
        | some h => optRepB p (h - lo) k prev' s'
        | none => optRepB p s'.length k prev' s') prev s

/-- Accepting continuation: a match may end anywhere. -/
def contTop : MCont := fun prev s => some (prev, s)

/-- Try to match `re` at the current position. -/
def tryMatch (re : RE) (prev : Option Char) (s : List Char) : MRes :=
  mX re contTop prev s

/-- Global replace, scanning left to right as `String.prototype.replace`
with a `/g` regex: on a match, emit the marker and resume after the match
(one character further for an empty match); otherwise advance one char.
`\b` look-behind always uses the original input characters. -/
def greplaceAux (re : RE) (marker : List Char) : Nat → Option Char → List Char → List Char
  | 0, _, s => s
  | _ + 1, prev, [] =>
    match tryMatch re prev [] with
    | some _ => marker
    | none => []
  | fuel + 1, prev, c :: rest =>
    match tryMatch re prev (c :: rest) with
    | some (p', rem) =>
      if rem.length = (c :: rest).length then
        marker ++ c :: greplaceAux re marker fuel (some c) rest
      else
        marker ++ greplaceAux re marker fuel p' rem
    | none => c :: greplaceAux re marker fuel (some c) rest

/-- `text.replace(re, marker)` for a `/g` regex. -/
def jsReplace (re : RE) (marker : List Char) (s : List Char) : List Char :=
  greplaceAux re marker (s.length + 1) none s

/-! ### The two patterns of `redactPII` (server.js lines 18-24) -/

/-- `/\b[A-Z0-9._%+-]+@[A-Z0-9.-]+\.[A-Z]{2,}\b/gi` -/
def emailRE : RE :=
  .seq .wb (.seq (.rep localCls 1 none) (.seq (.chr '@')
    (.seq (.rep domCls 1 none) (.seq (.chr '.')
      (.seq (.rep tldCls 2 none) .wb)))))

/-- `/(\+?\d{1,3}[-.\s]?)?(\(?\d{2,4}\)?[-.\s]?)?[\d-.\s]{5,15}/g` -/
def phoneRE : RE :=
  .seq (.opt (.seq (.opt (.chr '+'))
          (.seq (.rep isDigitC 1 (some 3)) (.opt (.cls sepCls)))))
    (.seq (.opt (.seq (.opt (.chr '('))
            (.seq (.rep isDigitC 2 (some 4))
              (.seq (.opt (.chr ')')) (.opt (.cls sepCls))))))
      (.rep phoneCls 5 (some 15)))

/-- server.js `redactPII`: email rule first, then phone rule. -/
def redactPII (t : List Char) : List Char :=
  if t = [] then t
  else jsReplace phoneRE (("[phone]").data) (jsReplace emailRE (("[email]").data) t)

/-! ### Sensitivity classifier (server.js lines 98-100) -/

/-- ASCII lower-casing, as `String.prototype.toLowerCase` acts on ASCII. -/
def jsLower (c : Char) : Char :=
  if 65 ≤ c.toNat ∧ c.toNat ≤ 90 then Char.ofNat (c.toNat + 32) else c

/-- `redacted.toLowerCase()` (character-wise; keywords are ASCII). -/
def jsToLowerCase (t : List Char) : List Char := t.map jsLower

/-- Does `needle` occur at the start of `hay`? -/
def startsWithL : List Char → List Char → Bool
  | [], _ => true
  | _ :: _, [] => false
  | c :: cs, d :: ds => c = d && startsWithL cs ds

/-- JS `hay.includes(needle)`: substring occurrence anywhere. -/
def includesL (hay needle : List Char) : Bool :=
  match hay with
  | [] => needle.isEmpty
  | _ :: rest => startsWithL needle hay || includesL rest needle

/-- The hardcoded keyword list of server.js line 99. -/
def sensitiveKeywords : List (List Char) :=
  [("refund").data, ("charge").data, ("billing").data,
   ("cancel subscription").data, ("delete account").data,
   ("terminate").data, ("legal").data]

/-- server.js line 100: `sensitiveKeywords.some((k) => lc.includes(k))`. -/
def isSensitive (t : List Char) : Bool :=
  sensitiveKeywords.any (fun k => includesL (jsToLowerCase t) k)

/-- The spec-level classification enum. -/
inductive Classification where
  | Sensitive
  | Normal
deriving DecidableEq

/-- The classifier as a function of the (redacted) text. -/
def classify (t : List Char) : Classification :=
  if isSensitive t then .Sensitive else .Normal

/-! ### The Drafter, gemini.js `generateReply`

The HTTP call is a collaborator: its outcome is a parameter, either a thrown
failure (network error, non-2xx, missing API key is modelled separately) or a
parsed JSON document.  The JSON shapes reachable at
`data?.candidates?.[0]?.content?.parts?.[0]?.text` are modelled structurally. -/

/-- One element of `parts`; `text` may be absent or null. -/
structure GPart where
  text : Option (List Char)
deriving DecidableEq

/-- The `content` object with its `parts` array. -/
structure GContent where
  parts : List GPart
deriving DecidableEq

/-- One candidate; `content` may be absent. -/
structure GCandidate where
  content : Option GContent
deriving DecidableEq

/-- The parsed response body; `candidates` may be absent/empty. -/
structure GeminiResponse where
  candidates : List GCandidate
deriving DecidableEq

/-- `data?.candidates?.[0]?.content?.parts?.[0]?.text ?? null`. -/
def pathText (d : GeminiResponse) : Option (List Char) :=
  (((d.candidates.head?).bind GCandidate.content).bind
    (fun c => c.parts.head?)).bind GPart.text

/-- Outcome of the axios call to the generative service. -/
inductive ServiceOutcome where
  | failure
  | success (data : GeminiResponse)
deriving DecidableEq

/-- JS `String.prototype.trim` (both ends, JS whitespace set). -/
def jsTrim (s : List Char) : List Char :=
  ((s.dropWhile jsSpace).reverse.dropWhile jsSpace).reverse

/-- gemini.js line 67 fallback. -/
def errGenMsg : List Char := ("Error generating reply (AI service).").data

/-- gemini.js line 60 fallback. -/
def sorryGenMsg : List Char :=
  ("Sorry — couldn\x27t generate a reply at the moment.").data

/-- gemini.js `generateReply`: the whole body runs inside try/catch, a missing
`GEMINI_API_KEY` throws before the call; `if (!reply)` treats an absent, null
or empty `text` alike; otherwise the text is trimmed. -/
def generateReply (apiKeySet : Bool) (o : ServiceOutcome) : List Char :=
  if apiKeySet = false then errGenMsg
  else
    match o with
    | .failure => errGenMsg
    | .success d =>
      match pathText d with
      | none => sorryGenMsg
      | some t => if t = [] then sorryGenMsg else jsTrim t

/-! ### The webhook handler (server.js lines 59-130)

JS values reachable as ticket identifiers are numbers or strings; `||` picks
the first truthy operand.  The two outbound calls are recorded as effects;
`postThrows` says whether the Zendesk PUT rejects (axios throw), which the
handler's try/catch turns into a 500 response. -/

/-- A primitive JS value usable as a ticket id. -/
inductive JsPrim where
  | num (n : Int)
  | str (s : List Char)
deriving DecidableEq

/-- JS truthiness for such a value (`0` and `""` are falsy). -/
def truthyPrim : JsPrim → Bool
  | .num n => !(n == 0)
  | .str s => !s.isEmpty

/-- Truthiness of a possibly-undefined value. -/
def truthyOpt : Option JsPrim → Bool
  | none => false
  | some v => truthyPrim v

/-- `a || b` on possibly-undefined values. -/
def jsOrV (a b : Option JsPrim) : Option JsPrim :=
  if truthyOpt a then a else b

/-- Template-literal rendering of a ticket id. -/
def jsPrimToString : JsPrim → List Char
  | .num n => (toString n).data
  | .str s => s

/-- The `comment` objects of the payload. -/
structure CommentObj where
  body : Option (List Char)
deriving DecidableEq

/-- The `ticket` object of the payload. -/
structure TicketObj where
  id : Option JsPrim
  latest_comment : Option CommentObj
  description : Option (List Char)
deriving DecidableEq

/-- The `object` object of the payload. -/
structure ObjObj where
  id : Option JsPrim
  latest_comment : Option CommentObj
  description : Option (List Char)
deriving DecidableEq

/-- The inbound webhook payload (`req.body`), duck-typed fields. -/
structure Payload where
  ticket : Option TicketObj
  ticket_id : Option JsPrim
  id : Option JsPrim
  object : Option ObjObj
  comment : Option CommentObj
deriving DecidableEq

/-- server.js lines 78-79: id resolution by `||` over the four paths. -/
def resolveTicketId (p : Payload) : Option JsPrim :=
  jsOrV (p.ticket.bind TicketObj.id)
    (jsOrV p.ticket_id (jsOrV p.id (p.object.bind ObjObj.id)))

/-- First truthy string of the raw-comment paths, else `""`. -/
def firstTruthyStr : List (Option (List Char)) → List Char
  | [] => []
  | none :: rest => firstTruthyStr rest
  | some s :: rest => if s.isEmpty then firstTruthyStr rest else s

/-- server.js lines 81-87: raw comment resolution over the five paths. -/
def resolveRawComment (p : Payload) : List Char :=
  firstTruthyStr
    [(p.comment).bind CommentObj.body,
     ((p.ticket).bind TicketObj.latest_comment).bind CommentObj.body,
     ((p.object).bind ObjObj.latest_comment).bind CommentObj.body,
     (p.ticket).bind TicketObj.description,
     (p.object).bind ObjObj.description]

/-- Process configuration read by the handler. -/
structure Config where
  webhookSharedSecret : Option (List Char)
  autoPostHumanFlag : Option (List Char)
deriving DecidableEq

/-- server.js lines 60-64 `verifySecret` (header may be absent). -/
def verifySecret (cfg : Config) (hdr : Option (List Char)) : Bool :=
  match cfg.webhookSharedSecret with
  | none => true
  | some sec =>
    if sec.isEmpty then true
    else
      let incoming := hdr.getD []
      !incoming.isEmpty && incoming == sec

/-- The JSON acknowledgment plus status code sent to the webhook caller. -/
structure Response where
  status : Nat
  ok : Bool
  error : Option (List Char)
  note : Option (List Char)
  ticketId : Option JsPrim
  replyPreview : Option (List Char)
deriving DecidableEq

/-- Outbound calls made while handling one request. -/
inductive Effect where
  | drafterCall (prompt : List Char)
  | zendeskPost (ticketId : JsPrim) (body : List Char) (isPublic : Bool)
deriving DecidableEq

/-- 401 `{ok:false, error:"Invalid shared secret"}`. -/
def respUnauthorized : Response :=
  ⟨401, false, some (("Invalid shared secret").data), none, none, none⟩

/-- 400 `{ok:false, error:"No ticket id in payload"}`. -/
def respNoTicket : Response :=
  ⟨400, false, some (("No ticket id in payload").data), none, none, none⟩

/-- 200 `{ok:true, note:"Flagged for human review"}`. -/
def respFlagged : Response :=
  ⟨200, true, none, some (("Flagged for human review").data), none, none⟩

/-- 200 `{ok:true, ticketId, replyPreview}`. -/
def respSuccess (tid : JsPrim) (preview : List Char) : Response :=
  ⟨200, true, none, none, some tid, some preview⟩

/-- 500 `{ok:false, error:"Internal server error"}` from the catch block. -/
def respServerError : Response :=
  ⟨500, false, some (("Internal server error").data), none, none, none⟩

/-- server.js lines 104-106: the human-review note body. -/
def humanNote (redacted : List Char) : List Char :=
  (("[HUMAN REVIEW] This ticket contains sensitive keywords (refund, charge, billing, cancel subscription, delete account, terminate, legal). Please review and reply manually.\n\nCustomer message (redacted):\n").data) ++ redacted

/-- server.js line 114: the prompt sent to the Drafter. -/
def promptText (tid : JsPrim) (redacted : List Char) : List Char :=
  (("Ticket #").data) ++ jsPrimToString tid ++
  (("\n\nCustomer message:\n").data) ++ redacted ++
  (("\n\nKeep response short and helpful. Respond as Napster support agent \x27Guna\x27.").data)

/-- server.js line 120: greeting/signature wrapper around the draft. -/
def finalBody (draft : List Char) : List Char :=
  (("Hi,\n\n").data) ++ draft ++ (("\n\n—\nGuna, Napster Customer Support").data)

/-- server.js lines 94-125, after id resolution: redaction, classification,
and the two branches.  `draftFn` abstracts `generateReply` awaited on the
prompt; `postThrows` abstracts a rejecting Zendesk PUT (caught at line 126). -/
def handlerCore (cfg : Config) (tidv : JsPrim) (redacted : List Char)
    (draftFn : List Char → List Char) (postThrows : Bool) :
    Response × List Effect :=
  if isSensitive redacted then
    if cfg.autoPostHumanFlag = some (("true").data) then
      if postThrows then
        (respServerError, [Effect.zendeskPost tidv (humanNote redacted) false])
      else
        (respFlagged, [Effect.zendeskPost tidv (humanNote redacted) false])
    else (respFlagged, [])
  else
    if postThrows then
      (respServerError,
       [Effect.drafterCall (promptText tidv redacted),
        Effect.zendeskPost tidv (finalBody (draftFn (promptText tidv redacted))) false])
    else
      (respSuccess tidv ((finalBody (draftFn (promptText tidv redacted))).take 600),
       [Effect.drafterCall (promptText tidv redacted),
        Effect.zendeskPost tidv (finalBody (draftFn (promptText tidv redacted))) false])

/-- server.js lines 67-130: the whole `/webhook/zendesk` handler. -/
def handler (cfg : Config) (hdr : Option (List Char)) (p : Payload)
    (draftFn : List Char → List Char) (postThrows : Bool) :
    Response × List Effect :=
  if verifySecret cfg hdr = false then (respUnauthorized, [])
  else if truthyOpt (resolveTicketId p) = false then (respNoTicket, [])
  else
    handlerCore cfg ((resolveTicketId p).getD (JsPrim.num 0))
      (redactPII (resolveRawComment p)) draftFn postThrows

/-- The `prev` value after consuming `cs` (last of `cs`, else unchanged). -/
def nextPrev : Option Char → List Char → Option Char
  | prev, [] => prev
  | _, c :: cs => nextPrev (some c) cs

/-- The head of this list (if any) is outside class `p`. -/
def headBlocked (p : Char → Bool) : List Char → Prop
  | [] => True
  | c :: _ => p c = false

/-- Does the regex match anywhere in `t` (scanning like the replace loop)? -/
def hasMatchFrom (re : RE) : Option Char → List Char → Bool
  | prev, [] => (tryMatch re prev []).isSome
  | prev, c :: rest => (tryMatch re prev (c :: rest)).isSome || hasMatchFrom re (some c) rest

/-- Does the regex match anywhere in `t`? -/
def hasMatch (re : RE) (t : List Char) : Bool := hasMatchFrom re none t

/-! ### Concrete fixtures used by counterexamples and witnesses -/

/-- No shared secret configured, human-flag posting disabled. -/
def cfgNone : Config := ⟨none, none⟩

/-- A drafter stub returning a fixed short reply. -/
def draftFn0 : List Char → List Char := fun _ => ("ok").data

/-- Spec scenario 1: `{ticket:{id:42}, comment:{body:"please refund my order, contact me at a@b.com"}}`. -/
def cexSensitiveEvent : Payload :=
  ⟨some ⟨some (.num 42), none, none⟩, none, none, none,
   some ⟨some (("please refund my order, contact me at a@b.com").data)⟩⟩

/-- Spec scenario 2: `{ticket_id:7, comment:{body:"How do I reset my password?"}}`. -/
def normalEvent : Payload :=
  ⟨none, some (.num 7), none, none,
   some ⟨some (("How do I reset my password?").data)⟩⟩

/-- An event whose only identifier field holds the number `0`. -/
def zeroIdEvent : Payload := ⟨some ⟨some (.num 0), none, none⟩, none, none, none, none⟩

/-- An event with no identifier field at all. -/
def emptyEvent : Payload := ⟨none, none, none, none, none⟩

/-- A service response carrying an empty string at the text path. -/
def c5BadResp : GeminiResponse := ⟨[⟨some ⟨[⟨some []⟩]⟩⟩]⟩

/-- A service response carrying `"  hi  "` at the text path. -/
def c5GoodResp : GeminiResponse := ⟨[⟨some ⟨[⟨some (("  hi  ").data)⟩]⟩⟩]⟩

/-! ## Lemma layer: equations for the matcher -/

/-- First alternative wins when it succeeds. -/
theorem obr_some (v : Option Char × List Char) (b : MRes) : obr (some v) b = some v := rfl

/-- Fall through to the second alternative on failure. -/
theorem obr_none (b : MRes) : obr none b = b := rfl

theorem mandRep_zero (p : Char → Bool) (k : MCont) : mandRep p 0 k = k := rfl

theorem mandRep_succ_nil (p : Char → Bool) (n : Nat) (k : MCont) (prev : Option Char) :
    mandRep p (n + 1) k prev [] = none := rfl

theorem mandRep_succ_cons (p : Char → Bool) (n : Nat) (k : MCont) (prev : Option Char)
    (c : Char) (r : List Char) :
    mandRep p (n + 1) k prev (c :: r) =
      if p c then mandRep p n k (some c) r else none := rfl

theorem optRepB_zero (p : Char → Bool) (k : MCont) : optRepB p 0 k = k := rfl

theorem optRepB_succ_nil (p : Char → Bool) (n : Nat) (k : MCont) (prev : Option Char) :
    optRepB p (n + 1) k prev [] = k prev [] := rfl

theorem optRepB_succ_cons (p : Char → Bool) (n : Nat) (k : MCont) (prev : Option Char)
    (c : Char) (r : List Char) :
    optRepB p (n + 1) k prev (c :: r) =
      if p c then obr (optRepB p n k (some c) r) (k prev (c :: r)) else k prev (c :: r) := rfl

theorem mX_chr_nil (c : Char) (k : MCont) (prev : Option Char) :
    mX (.chr c) k prev [] = none := rfl

theorem mX_chr_cons (c : Char) (k : MCont) (prev : Option Char) (c' : Char) (r : List Char) :
    mX (.chr c) k prev (c' :: r) = if c' = c then k (some c') r else none := rfl

theorem mX_cls_nil (p : Char → Bool) (k : MCont) (prev : Option Char) :
    mX (.cls p) k prev [] = none := rfl

theorem mX_cls_cons (p : Char → Bool) (k : MCont) (prev : Option Char) (c : Char) (r : List Char) :
    mX (.cls p) k prev (c :: r) = if p c then k (some c) r else none := rfl

theorem mX_wb (k : MCont) (prev : Option Char) (s : List Char) :
    mX .wb k prev s = if atBoundary prev s then k prev s else none := rfl

theorem mX_seq (a b : RE) (k : MCont) : mX (.seq a b) k = mX a (mX b k) := rfl

theorem mX_opt (a : RE) (k : MCont) (prev : Option Char) (s : List Char) :
    mX (.opt a) k prev s = obr (mX a k prev s) (k prev s) := rfl

theorem mX_rep_fin (p : Char → Bool) (lo h : Nat) (k : MCont) (prev : Option Char) (s : List Char) :
    mX (.rep p lo (some h)) k prev s =
      mandRep p lo (fun p' s' => optRepB p (h - lo) k p' s') prev s := rfl

theorem mX_rep_inf (p : Char → Bool) (lo : Nat) (k : MCont) (prev : Option Char) (s : List Char) :
    mX (.rep p lo none) k prev s =
      mandRep p lo (fun p' s' => optRepB p s'.length k p' s') prev s := rfl

/-! ## Failure of the matcher when the continuation fails on every suffix -/

/-- `mandRep` only calls its continuation on suffixes of the input. -/
theorem mandRep_none (p : Char → Bool) (n : Nat) :
    ∀ (k : MCont) (prev : Option Char) (s : List Char),
      (∀ p' s', s' <:+ s → k p' s' = none) → mandRep p n k prev s = none := by
  induction n with
  | zero => intro k prev s h; exact h prev s (List.suffix_refl s)
  | succ n ih =>
    intro k prev s h
    cases s with
    | nil => rfl
    | cons c rest =>
      rw [mandRep_succ_cons]
      by_cases hc : p c
      · simp only [hc, if_true]
        exact ih k (some c) rest (fun p' s' hs => h p' s' (hs.trans (List.suffix_cons c rest)))
      · simp [hc]

/-- `optRepB` only calls its continuation on suffixes of the input. -/
theorem optRepB_none (p : Char → Bool) (n : Nat) :
    ∀ (k : MCont) (prev : Option Char) (s : List Char),
      (∀ p' s', s' <:+ s → k p' s' = none) → optRepB p n k prev s = none := by
  induction n with
  | zero => intro k prev s h; exact h prev s (List.suffix_refl s)
  | succ n ih =>
    intro k prev s h
    cases s with
    | nil => exact h prev [] (List.suffix_refl [])
    | cons c rest =>
      rw [optRepB_succ_cons]
      by_cases hc : p c
      · simp only [hc, if_true]
        rw [ih k (some c) rest (fun p' s' hs => h p' s' (hs.trans (List.suffix_cons c rest))),
            obr_none]
        exact h prev (c :: rest) (List.suffix_refl _)
      · simp only [hc, if_false]
        exact h prev (c :: rest) (List.suffix_refl _)

/-- The matcher only calls its continuation on suffixes of the input. -/
theorem mX_none (r : RE) :
    ∀ (k : MCont) (prev : Option Char) (s : List Char),
      (∀ p' s', s' <:+ s → k p' s' = none) → mX r k prev s = none := by
  induction r with
  | chr c =>
    intro k prev s h
    cases s with
    | nil => rfl
    | cons c' rest =>
      rw [mX_chr_cons]
      by_cases hc : c' = c
      · simp only [hc, if_true]
        exact h (some c) rest (List.suffix_cons c' rest)
      · simp [hc]
  | cls p =>
    intro k prev s h
    cases s with
    | nil => rfl
    | cons c rest =>
      rw [mX_cls_cons]
      by_cases hc : p c
      · simp only [hc, if_true]
        exact h (some c) rest (List.suffix_cons c rest)
      · simp [hc]
  | wb =>
    intro k prev s h
    rw [mX_wb]
    by_cases hb : atBoundary prev s
    · simp only [hb, if_true]
      exact h prev s (List.suffix_refl s)
    · simp [hb]
  | seq a b iha ihb =>
    intro k prev s h
    rw [mX_seq]
    exact iha (mX b k) prev s
      (fun p' s' hs => ihb k p' s' (fun p'' s'' hs' => h p'' s'' (hs'.trans hs)))
  | opt a iha =>
    intro k prev s h
    rw [mX_opt, iha k prev s h, obr_none]
    exact h prev s (List.suffix_refl s)
  | rep p lo hi =>
    intro k prev s h
    cases hi with
    | some hh =>
      rw [mX_rep_fin]
      exact mandRep_none p lo _ prev s
        (fun p' s' hs => optRepB_none p (hh - lo) k p' s'
          (fun p'' s'' hs' => h p'' s'' (hs'.trans hs)))
    | none =>
      rw [mX_rep_inf]
      exact mandRep_none p lo _ prev s
        (fun p' s' hs => optRepB_none p s'.length k p' s'
          (fun p'' s'' hs' => h p'' s'' (hs'.trans hs)))

/-! ## Successful consumption lemmas (greedy repetition) -/

/-- Mandatory repetition consumes exactly the in-class block in front. -/
theorem mandRep_append (p : Char → Bool) :
    ∀ (cs rest : List Char) (k : MCont) (prev : Option Char),
      (∀ c ∈ cs, p c = true) →
      mandRep p cs.length k prev (cs ++ rest) = k (nextPrev prev cs) rest := by
  intro cs
  induction cs with
  | nil => intro rest k prev _; rfl
  | cons c cs ih =>
    intro rest k prev hall
    have hc : p c = true := hall c (List.mem_cons_self c cs)
    rw [List.length_cons, List.cons_append, mandRep_succ_cons]
    simp only [hc, if_true]
    exact ih rest k (some c) (fun d hd => hall d (List.mem_cons_of_mem c hd))

/-- Greedy optional repetition runs up to a blocking character and stops
there when the continuation succeeds at that point. -/
theorem optRepB_stop (p : Char → Bool) :
    ∀ (cs rest : List Char) (n : Nat) (k : MCont) (prev : Option Char)
      (v : Option Char × List Char),
      (∀ c ∈ cs, p c = true) → cs.length ≤ n → headBlocked p rest →
      k (nextPrev prev cs) rest = some v →
      optRepB p n k prev (cs ++ rest) = some v := by
  intro cs
  induction cs with
  | nil =>
    intro rest n k prev v _ _ hb hk
    cases n with
    | zero => exact hk
    | succ n =>
      cases rest with
      | nil => exact hk
      | cons c r =>
        have hb' : p c = false := hb
        rw [List.nil_append, optRepB_succ_cons]
        simp only [hb', if_false]
        exact hk
  | cons c cs ih =>
    intro rest n k prev v hall hlen hb hk
    cases n with
    | zero => simp at hlen
    | succ n =>
      have hc : p c = true := hall c (List.mem_cons_self c cs)
      rw [List.cons_append, optRepB_succ_cons]
      simp only [hc, if_true]
      rw [ih rest n k (some c) v (fun d hd => hall d (List.mem_cons_of_mem c hd))
            (by simpa using Nat.le_of_succ_le_succ (by simpa using hlen)) hb hk,
          obr_some]

/-- Greedy optional repetition over a fully in-class block: consume all of it
when the continuation succeeds only at the end. -/
theorem optRepB_all (p : Char → Bool) (cs : List Char) (n : Nat) (k : MCont)
    (prev : Option Char) (v : Option Char × List Char)
    (hall : ∀ c ∈ cs, p c = true) (hlen : cs.length ≤ n)
    (hk : k (nextPrev prev cs) [] = some v) :
    optRepB p n k prev cs = some v := by
  have h := optRepB_stop p cs [] n k prev v hall hlen trivial hk
  simpa using h

/-- Longest-first search: with an entirely in-class input split as
`xs ++ ys`, if the continuation fails on every strictly shorter suffix than
`ys` and succeeds at `ys`, the greedy repetition stops exactly at `ys`. -/
theorem optRepB_search (p : Char → Bool) :
    ∀ (xs ys : List Char) (n : Nat) (k : MCont) (prev : Option Char)
      (v : Option Char × List Char),
      (∀ c ∈ xs ++ ys, p c = true) → (xs ++ ys).length ≤ n →
      (∀ p' ss, ss <:+ xs ++ ys → ss.length < ys.length → k p' ss = none) →
      k (nextPrev prev xs) ys = some v →
      optRepB p n k prev (xs ++ ys) = some v := by
  intro xs
  induction xs with
  | nil =>
    intro ys n k prev v hall hlen hfail hk
    rw [List.nil_append] at hall hlen hfail ⊢
    cases ys with
    | nil => cases n <;> exact hk
    | cons c r =>
      cases n with
      | zero => simp at hlen
      | succ n =>
        have hc : p c = true := hall c (List.mem_cons_self c r)
        rw [optRepB_succ_cons]
        simp only [hc, if_true]
        have h1 : optRepB p n k (some c) r = none := by
          apply optRepB_none
          intro p' s' hs
          apply hfail p' s' (hs.trans (List.suffix_cons c r))
          have := hs.length_le
          simp only [List.length_cons]
          omega
        rw [h1, obr_none]
        exact hk
  | cons x xs ih =>
    intro ys n k prev v hall hlen hfail hk
    cases n with
    | zero => simp at hlen
    | succ n =>
      have hx : p x = true := hall x (List.mem_cons_self x (xs ++ ys))
      rw [List.cons_append, optRepB_succ_cons]
      simp only [hx, if_true]
      rw [ih ys n k (some x) v (fun d hd => hall d (List.mem_cons_of_mem x hd))
            (by simp only [List.length_append, List.length_cons] at hlen ⊢; omega)
            (fun p' ss hss hlt =>
              hfail p' ss (hss.trans (List.suffix_cons x (xs ++ ys))) hlt)
            hk,
          obr_some]

/-! ## Small list and class facts -/

/-- A suffix of `xs ++ ys` no longer than `ys` is a suffix of `ys`. -/
theorem suffix_short : ∀ (xs ss ys : List Char),
    ss <:+ xs ++ ys → ss.length ≤ ys.length → ss <:+ ys := by
  intro xs
  induction xs with
  | nil => intro ss ys h _; simpa using h
  | cons x xs ih =>
    intro ss ys h hl
    rw [List.cons_append, List.suffix_cons_iff] at h
    cases h with
    | inl he =>
      have : ss.length = (x :: (xs ++ ys)).length := by rw [he]
      simp only [List.length_cons, List.length_append] at this
      omega
    | inr hs => exact ih ss ys hs hl

/-- Threading `prev` through an all-`P` block keeps it an all-`P` character. -/
theorem nextPrev_pred (P : Char → Bool) :
    ∀ (cs : List Char) (x : Char), (∀ c ∈ cs, P c = true) → P x = true →
      ∃ y, nextPrev (some x) cs = some y ∧ P y = true := by
  intro cs
  induction cs with
  | nil => intro x _ hx; exact ⟨x, rfl, hx⟩
  | cons c cs ih =>
    intro x hall _
    exact ih c (fun d hd => hall d (List.mem_cons_of_mem c hd))
      (hall c (List.mem_cons_self c cs))

/-- A separator character is not a digit. -/
theorem sep_not_digit (c : Char) (h : sepCls c = true) : isDigitC c = false := by
  simp only [sepCls, jsSpace, Bool.or_eq_true, Bool.and_eq_true,
    decide_eq_true_eq] at h
  simp only [isDigitC, Bool.and_eq_true, decide_eq_true_eq,
    Bool.and_eq_false_iff, decide_eq_false_iff_not]
  omega

/-- A separator character is in the phone class. -/
theorem sep_phone (c : Char) (h : sepCls c = true) : phoneCls c = true := by
  simp only [sepCls, Bool.or_eq_true] at h
  simp only [phoneCls, Bool.or_eq_true]
  tauto

/-- A TLD character (ASCII letter) is in the domain class. -/
theorem tld_dom (c : Char) (h : tldCls c = true) : domCls c = true := by
  simp only [tldCls] at h
  simp only [domCls, Bool.or_eq_true]
  tauto

/-- A TLD character (ASCII letter) is a word character. -/
theorem tld_word (c : Char) (h : tldCls c = true) : wordChar c = true := by
  simp only [tldCls] at h
  simp only [wordChar, Bool.or_eq_true]
  tauto

/-- A TLD character (ASCII letter) is not the dot. -/
theorem tld_ne_dot (c : Char) (h : tldCls c = true) : ¬(c = '.') := by
  intro he
  subst he
  exact absurd h (by decide)

/-! ## The email pattern never matches text without an `@` -/

/-- Any email-pattern match must consume an `@`. -/
theorem tryMatch_email_noat (prev : Option Char) (s : List Char) (h : '@' ∉ s) :
    tryMatch emailRE prev s = none := by
  show mX emailRE contTop prev s = none
  rw [emailRE, mX_seq, mX_wb]
  by_cases hb : atBoundary prev s
  · simp only [hb, if_true]
    rw [mX_seq, mX_rep_inf]
    apply mandRep_none
    intro p1 s1 hs1
    apply optRepB_none
    intro p2 s2 hs2
    cases s2 with
    | nil => rfl
    | cons c r =>
      rw [mX_seq, mX_chr_cons]
      have hc : ¬(c = '@') := by
        intro he
        subst he
        exact h (hs1.mem (hs2.mem (List.mem_cons_self _ _)))
      simp [hc]
  · simp [hb]

/-- Global email replacement is the identity on text without an `@`. -/
theorem greplaceAux_email_id (marker : List Char) :
    ∀ (fuel : Nat) (prev : Option Char) (t : List Char), '@' ∉ t →
      greplaceAux emailRE marker fuel prev t = t := by
  intro fuel
  induction fuel with
  | zero => intro prev t _; rfl
  | succ fuel ih =>
    intro prev t h
    cases t with
    | nil =>
      show (match tryMatch emailRE prev [] with
        | some _ => marker
        | none => ([] : List Char)) = []
      rw [tryMatch_email_noat prev [] h]
    | cons c rest =>
      show (match tryMatch emailRE prev (c :: rest) with
        | some (p', rem) =>
          if rem.length = (c :: rest).length then
            marker ++ c :: greplaceAux emailRE marker fuel (some c) rest
          else marker ++ greplaceAux emailRE marker fuel p' rem
        | none => c :: greplaceAux emailRE marker fuel (some c) rest) = c :: rest
      rw [tryMatch_email_noat prev (c :: rest) h]
      have : '@' ∉ rest := fun hr => h (List.mem_cons_of_mem c hr)
      rw [ih (some c) rest this]

/-- `text.replace(emailRegex, "[email]")` is the identity without an `@`. -/
theorem jsReplace_email_id (t : List Char) (h : '@' ∉ t) :
    jsReplace emailRE (("[email]").data) t = t :=
  greplaceAux_email_id _ _ none t h

/-! ## The phone pattern on separator-only runs -/

/-- Mandatory repetition phrased with `take`/`drop`. -/
theorem mandRep_take (p : Char → Bool) (n : Nat) (k : MCont) (prev : Option Char)
    (s : List Char) (hn : n ≤ s.length) (hall : ∀ c ∈ s.take n, p c = true) :
    mandRep p n k prev s = k (nextPrev prev (s.take n)) (s.drop n) := by
  have h := mandRep_append p (s.take n) (s.drop n) k prev hall
  rw [List.take_append_drop] at h
  rwa [List.length_take, Nat.min_eq_left hn] at h

/-- The phone pattern cannot match the empty string. -/
theorem tryMatch_phone_nil (prev : Option Char) : tryMatch phoneRE prev [] = none := rfl

/-- On a 5-to-15 character run of separators (`-`, `.`, whitespace), the phone
pattern matches the entire run: both optional groups need a digit and fail,
and the greedy `[\d-.\s]{5,15}` consumes everything. -/
theorem tryMatch_phone_sep (prev : Option Char) (t : List Char)
    (h5 : 5 ≤ t.length) (h15 : t.length ≤ 15)
    (hall : ∀ c ∈ t, sepCls c = true) :
    ∃ pf, tryMatch phoneRE prev t = some (pf, []) := by
  obtain ⟨c0, t', rfl⟩ : ∃ c0 t', t = c0 :: t' := by
    cases t with
    | nil => simp at h5
    | cons a b => exact ⟨a, b, rfl⟩
  have hc0 : sepCls c0 = true := hall c0 (List.mem_cons_self _ _)
  have hplus : ¬(c0 = '+') := by
    intro he
    rw [he] at hc0
    exact absurd hc0 (by decide)
  have hlpar : ¬(c0 = '(') := by
    intro he
    rw [he] at hc0
    exact absurd hc0 (by decide)
  have hdig : isDigitC c0 = false := sep_not_digit c0 hc0
  have hg1 : ∀ (k : MCont) (pv : Option Char),
      mX (.seq (.opt (.chr '+'))
        (.seq (.rep isDigitC 1 (some 3)) (.opt (.cls sepCls)))) k pv (c0 :: t') = none := by
    intro k pv
    rw [mX_seq, mX_opt, mX_chr_cons, if_neg hplus, obr_none, mX_seq, mX_rep_fin,
        mandRep_succ_cons]
    simp [hdig]
  have hg2 : ∀ (k : MCont) (pv : Option Char),
      mX (.seq (.opt (.chr '('))
        (.seq (.rep isDigitC 2 (some 4))
          (.seq (.opt (.chr ')')) (.opt (.cls sepCls))))) k pv (c0 :: t') = none := by
    intro k pv
    rw [mX_seq, mX_opt, mX_chr_cons, if_neg hlpar, obr_none, mX_seq, mX_rep_fin,
        mandRep_succ_cons]
    simp [hdig]
  have htail : ∀ (pv : Option Char),
      mX (.rep phoneCls 5 (some 15)) contTop pv (c0 :: t') =
        some (nextPrev (nextPrev pv ((c0 :: t').take 5)) ((c0 :: t').drop 5), []) := by
    intro pv
    rw [mX_rep_fin,
        mandRep_take phoneCls 5 _ pv (c0 :: t') h5
          (fun c hc => sep_phone c (hall c (List.take_subset 5 (c0 :: t') hc)))]
    apply optRepB_all
    · intro c hc
      exact sep_phone c (hall c (List.drop_subset 5 (c0 :: t') hc))
    · rw [List.length_drop]
      omega
    · rfl
  refine ⟨nextPrev (nextPrev prev ((c0 :: t').take 5)) ((c0 :: t').drop 5), ?_⟩
  show mX phoneRE contTop prev (c0 :: t') = _
  rw [phoneRE, mX_seq, mX_opt, hg1, obr_none, mX_seq, mX_opt, hg2, obr_none, htail]

/-- C10 (amended): the phone rule matches runs containing no digit at all: a
maximal run of 5 to 15 characters drawn only from `-`, `.` and whitespace,
standing alone as the entire text (so never part of an email match and not
preceded by digits), is replaced by `redactPII` with the literal marker
`[phone]`.  In arbitrary context an adjacent digit run can make the
15-character cap split a match inside the run, so part of a run can survive
(see the counterexample). -/
theorem redactPII_sep_run (t : List Char) (h5 : 5 ≤ t.length) (h15 : t.length ≤ 15)
    (hall : ∀ c ∈ t, sepCls c = true) :
    redactPII t = ("[phone]").data := by
  have hne : t ≠ [] := by
    intro h
    rw [h] at h5
    simp at h5
  have hat : '@' ∉ t := by
    intro hm
    exact absurd (hall '@' hm) (by decide)
  rw [redactPII, if_neg hne, jsReplace_email_id t hat]
  obtain ⟨c0, t', rfl⟩ : ∃ c0 t', t = c0 :: t' := by
    cases t with
    | nil => simp at h5
    | cons a b => exact ⟨a, b, rfl⟩
  obtain ⟨pf, hm⟩ := tryMatch_phone_sep none (c0 :: t') h5 h15 hall
  rw [jsReplace]
  simp only [greplaceAux, List.length_cons]
  rw [hm]
  simp only [List.length_nil, List.length_cons]
  rw [if_neg (by omega)]
  simp only [greplaceAux, tryMatch_phone_nil, List.append_nil]

/-! ## The email pattern on a whole-string well-formed address -/

/-- The email pattern consumes an entire string of the shape
`local@domain.tld` (local part starting with a word character): the greedy
domain repetition backtracks to the last dot, and both boundaries hold. -/
theorem tryMatch_email_whole (prev : Option Char) (l0 : Char) (l' : List Char)
    (d0 : Char) (d' e : List Char)
    (hprev : isWordOpt prev = false)
    (hw : wordChar l0 = true)
    (hl : ∀ c ∈ l0 :: l', localCls c = true)
    (hdc : ∀ c ∈ d0 :: d', domCls c = true)
    (he2 : 2 ≤ e.length) (hec : ∀ c ∈ e, tldCls c = true) :
    ∃ pf, tryMatch emailRE prev ((l0 :: l') ++ '@' :: ((d0 :: d') ++ '.' :: e)) =
      some (pf, []) := by
  obtain ⟨e0, e1, e'', rfl⟩ : ∃ e0 e1 e'', e = e0 :: e1 :: e'' := by
    cases e with
    | nil => simp at he2
    | cons a b =>
      cases b with
      | nil => simp at he2
      | cons a2 b2 => exact ⟨a, a2, b2, rfl⟩
  have he0 : tldCls e0 = true := hec e0 (List.mem_cons_self _ _)
  have he1 : tldCls e1 = true := hec e1 (List.mem_cons_of_mem _ (List.mem_cons_self _ _))
  have hee : ∀ c ∈ e'', tldCls c = true :=
    fun c hc => hec c (List.mem_cons_of_mem _ (List.mem_cons_of_mem _ hc))
  obtain ⟨y, hy, hyt⟩ := nextPrev_pred tldCls e'' e1 hee he1
  have hK5 : ∀ (pv : Option Char),
      mX (.rep tldCls 2 none) (mX .wb contTop) pv (e0 :: e1 :: e'') =
        some (some y, []) := by
    intro pv
    rw [mX_rep_inf, mandRep_succ_cons]
    simp only [he0, if_true]
    rw [mandRep_succ_cons]
    simp only [he1, if_true]
    rw [mandRep_zero]
    apply optRepB_all tldCls e'' e''.length _ (some e1) (some y, []) hee (Nat.le_refl _)
    rw [hy, mX_wb]
    have hb : atBoundary (some y) [] = true := by
      simp [atBoundary, isWordOpt, tld_word y hyt]
    rw [if_pos hb]
    rfl
  have hK4 : ∀ (pv : Option Char),
      mX (.chr '.') (mX (.rep tldCls 2 none) (mX .wb contTop)) pv
        ('.' :: (e0 :: e1 :: e'')) = some (some y, []) := by
    intro pv
    rw [mX_chr_cons, if_pos rfl]
    exact hK5 (some '.')
  have hK3 : ∀ (pv : Option Char),
      mX (.rep domCls 1 none)
        (mX (.chr '.') (mX (.rep tldCls 2 none) (mX .wb contTop))) pv
        ((d0 :: d') ++ '.' :: (e0 :: e1 :: e'')) = some (some y, []) := by
    intro pv
    rw [List.cons_append, mX_rep_inf, mandRep_succ_cons]
    have hd0 : domCls d0 = true := hdc d0 (List.mem_cons_self _ _)
    simp only [hd0, if_true]
    rw [mandRep_zero]
    apply optRepB_search domCls d' ('.' :: (e0 :: e1 :: e'')) _ _ (some d0) (some y, [])
    · intro c hc
      rcases List.mem_append.mp hc with hc1 | hc2
      · exact hdc c (List.mem_cons_of_mem d0 hc1)
      · rcases List.mem_cons.mp hc2 with hdot | hce
        · rw [hdot]; decide
        · exact tld_dom c (hec c hce)
    · exact Nat.le_refl _
    · intro p' ss hss hlt
      have hss' : ss <:+ '.' :: (e0 :: e1 :: e'') := by
        apply suffix_short d' ss _ hss
        simp only [List.length_cons] at hlt ⊢
        omega
      cases ss with
      | nil => rfl
      | cons c r =>
        have hcE : c ∈ (e0 :: e1 :: e'') := by
          rcases List.suffix_cons_iff.mp hss' with heq | hsuf
          · rw [heq] at hlt
            simp at hlt
          · exact hsuf.mem (List.mem_cons_self c r)
        have hcd : ¬(c = '.') := tld_ne_dot c (hec c hcE)
        rw [mX_chr_cons, if_neg hcd]
    · exact hK4 (nextPrev (some d0) d')
  have hK2 : ∀ (pv : Option Char),
      mX (.chr '@')
        (mX (.rep domCls 1 none)
          (mX (.chr '.') (mX (.rep tldCls 2 none) (mX .wb contTop)))) pv
        ('@' :: ((d0 :: d') ++ '.' :: (e0 :: e1 :: e''))) = some (some y, []) := by
    intro pv
    rw [mX_chr_cons, if_pos rfl]
    exact hK3 (some '@')
  refine ⟨some y, ?_⟩
  show mX emailRE contTop prev _ = _
  rw [emailRE]
  simp only [mX_seq]
  rw [List.cons_append, mX_wb]
  have hwl0 : isWordOpt (some l0) = true := by simp [isWordOpt, hw]
  have hb : atBoundary prev (l0 :: (l' ++ '@' :: ((d0 :: d') ++ '.' :: (e0 :: e1 :: e'')))) = true := by
    simp [atBoundary, hprev, hwl0]
  rw [if_pos hb, mX_rep_inf, mandRep_succ_cons]
  have hl0 : localCls l0 = true := hl l0 (List.mem_cons_self _ _)
  simp only [hl0, if_true]
  rw [mandRep_zero]
  apply optRepB_stop localCls l' ('@' :: ((d0 :: d') ++ '.' :: (e0 :: e1 :: e''))) _ _
    (some l0) (some y, [])
  · exact fun c hc => hl c (List.mem_cons_of_mem l0 hc)
  · simp only [List.length_append]
    omega
  · show localCls '@' = false
    decide
  · exact hK2 (nextPrev (some l0) l')

/-- The phone pass leaves the literal marker `[email]` unchanged. -/
theorem phone_pass_email_marker :
    jsReplace phoneRE (("[phone]").data) (("[email]").data) = ("[email]").data := by
  decide

/-- C6 (amended): for a text in which the email pattern matches — here any
well-formed address `local@domain.tld` standing alone as the whole text, with
the local part starting with a word character — `redactPII` replaces the
match with the literal marker `[email]` and the output contains no occurrence
of the address; the email rule runs before the phone rule (which leaves the
marker alone).  Occurrences failing the pattern's `\b` word boundaries are
not matched and may survive (see the counterexample). -/
theorem redactPII_email_whole (l0 : Char) (l' : List Char) (d0 : Char) (d' e : List Char)
    (hw : wordChar l0 = true)
    (hl : ∀ c ∈ l0 :: l', localCls c = true)
    (hdc : ∀ c ∈ d0 :: d', domCls c = true)
    (he2 : 2 ≤ e.length) (hec : ∀ c ∈ e, tldCls c = true) :
    redactPII ((l0 :: l') ++ '@' :: ((d0 :: d') ++ '.' :: e)) = ("[email]").data := by
  obtain ⟨pf, hm⟩ := tryMatch_email_whole none l0 l' d0 d' e rfl hw hl hdc he2 hec
  have hne : ((l0 :: l') ++ '@' :: ((d0 :: d') ++ '.' :: e)) ≠ [] := by simp
  rw [redactPII, if_neg hne]
  have hemail : jsReplace emailRE (("[email]").data)
      ((l0 :: l') ++ '@' :: ((d0 :: d') ++ '.' :: e)) = ("[email]").data := by
    rw [List.cons_append] at hm ⊢
    rw [jsReplace]
    simp only [greplaceAux, List.length_cons]
    rw [hm]
    simp only [List.length_nil, List.length_cons]
    rw [if_neg (by omega)]
    simp only [greplaceAux, tryMatch_email_noat pf [] (by simp), List.append_nil]
  rw [hemail, phone_pass_email_marker]

/-! ## Classifier and handler support lemmas -/

/-- `startsWithL` decides the prefix relation. -/
theorem startsWithL_iff (needle : List Char) :
    ∀ hay, startsWithL needle hay = true ↔ needle <+: hay := by
  induction needle with
  | nil => intro hay; simp [startsWithL]
  | cons c cs ih =>
    intro hay
    cases hay with
    | nil => simp [startsWithL]
    | cons d ds => simp [startsWithL, List.cons_prefix_cons, ih]

/-- `includesL` decides the substring (infix) relation, as JS `includes`. -/
theorem includesL_iff (hay : List Char) :
    ∀ needle, includesL hay needle = true ↔ needle <:+: hay := by
  induction hay with
  | nil => intro needle; simp [includesL, List.isEmpty_iff]
  | cons c rest ih =>
    intro needle
    simp [includesL, List.infix_cons_iff, startsWithL_iff, ih]

/-- Truthiness of `a || b` over possibly-undefined values. -/
theorem truthy_jsOr (a b : Option JsPrim) :
    truthyOpt (jsOrV a b) = (truthyOpt a || truthyOpt b) := by
  rw [jsOrV]
  cases ha : truthyOpt a <;> simp [ha]

/-! ## Claim theorems -/

/-- C1: `classify t` is `Sensitive` iff the lower-cased `t` contains at least
one of the seven keywords (refund, charge, billing, cancel subscription,
delete account, terminate, legal) as a substring; otherwise it is `Normal`. -/
theorem c1_classify_keyword_iff (t : List Char) :
    (classify t = Classification.Sensitive ↔
      ∃ k ∈ [("refund").data, ("charge").data, ("billing").data,
        ("cancel subscription").data, ("delete account").data,
        ("terminate").data, ("legal").data], k <:+: jsToLowerCase t) ∧
    (classify t = Classification.Normal ↔
      ¬ ∃ k ∈ [("refund").data, ("charge").data, ("billing").data,
        ("cancel subscription").data, ("delete account").data,
        ("terminate").data, ("legal").data], k <:+: jsToLowerCase t) := by
  have hiff : isSensitive t = true ↔
      ∃ k ∈ [("refund").data, ("charge").data, ("billing").data,
        ("cancel subscription").data, ("delete account").data,
        ("terminate").data, ("legal").data], k <:+: jsToLowerCase t := by
    simp only [isSensitive, sensitiveKeywords, List.any_eq_true, includesL_iff]
  constructor
  · rw [← hiff]
    cases hs : isSensitive t <;> simp [classify, hs]
  · rw [← hiff]
    cases hs : isSensitive t <;> simp [classify, hs]

/-- C2: for every inbound event whose redacted text classifies as Sensitive,
the webhook handler never calls the Drafter, whatever the configuration
(including the AUTO_POST_HUMAN_FLAG toggle), header, or post outcome. -/
theorem c2_sensitive_never_drafts (cfg : Config) (hdr : Option (List Char)) (p : Payload)
    (draftFn : List Char → List Char) (postThrows : Bool)
    (hs : isSensitive (redactPII (resolveRawComment p)) = true) :
    ∀ pr, Effect.drafterCall pr ∉ (handler cfg hdr p draftFn postThrows).2 := by
  intro pr
  rw [handler]
  split
  · simp
  · split
    · simp
    · rw [handlerCore, if_pos hs]
      split
      · split <;> simp
      · simp

/-- C2 witness: scenario-1 event, Drafter never called. -/
theorem c2_witness :
    isSensitive (redactPII (resolveRawComment cexSensitiveEvent)) = true ∧
    Effect.drafterCall [] ∉ (handler cfgNone none cexSensitiveEvent draftFn0 false).2 :=
  ⟨by decide,
   c2_sensitive_never_drafts cfgNone none cexSensitiveEvent draftFn0 false (by decide) []⟩

/-- C3 counterexample: redaction is not idempotent.  On
`"a@b.co1111111"` the email pattern fails (no `\b` between `o` and `1`), the
phone pass eats the digit run, and the second application then finds the
email `a@b.co` in front of the freshly created `[phone]` marker. -/
theorem c3_counterexample :
    redactPII (redactPII (("a@b.co1111111").data)) ≠ redactPII (("a@b.co1111111").data) := by
  decide

/-- C3 (amended): redaction is idempotent on text it leaves unchanged (text
already free of matches); in general a second application can differ. -/
theorem c3_amended_idempotent_on_fixed (t : List Char) (h : redactPII t = t) :
    redactPII (redactPII t) = redactPII t := by
  simp only [h]

/-- C3 witness: applying redaction twice to a match-free text. -/
theorem c3_amended_witness :
    redactPII (("hello world").data) = ("hello world").data ∧
    redactPII (redactPII (("hello world").data)) = redactPII (("hello world").data) :=
  ⟨by decide, c3_amended_idempotent_on_fixed (("hello world").data) (by decide)⟩

/-- C4: when none of the four identifier paths carries a truthy (non-empty)
value, an authorized request is answered 400 with
`{ok:false, error:"No ticket id in payload"}` and no Drafter call and no
Zendesk post happens. -/
theorem c4_no_ticket_id (cfg : Config) (hdr : Option (List Char)) (p : Payload)
    (draftFn : List Char → List Char) (postThrows : Bool)
    (hauth : verifySecret cfg hdr = true)
    (h1 : truthyOpt (p.ticket.bind TicketObj.id) = false)
    (h2 : truthyOpt p.ticket_id = false)
    (h3 : truthyOpt p.id = false)
    (h4 : truthyOpt (p.object.bind ObjObj.id) = false) :
    (handler cfg hdr p draftFn postThrows).1.status = 400 ∧
    (handler cfg hdr p draftFn postThrows).1.ok = false ∧
    (handler cfg hdr p draftFn postThrows).1.error =
      some (("No ticket id in payload").data) ∧
    (handler cfg hdr p draftFn postThrows).2 = [] := by
  have htid : truthyOpt (resolveTicketId p) = false := by
    rw [resolveTicketId, truthy_jsOr, truthy_jsOr, truthy_jsOr, h1, h2, h3, h4]
    rfl
  have hv : ¬(verifySecret cfg hdr = false) := by simp [hauth]
  rw [handler, if_neg hv, if_pos htid]
  exact ⟨rfl, rfl, rfl, rfl⟩

/-- C4 witness: an event with no identifier field at all. -/
theorem c4_witness :
    verifySecret cfgNone none = true ∧
    ((handler cfgNone none emptyEvent draftFn0 false).1.status = 400 ∧
     (handler cfgNone none emptyEvent draftFn0 false).1.ok = false ∧
     (handler cfgNone none emptyEvent draftFn0 false).1.error =
       some (("No ticket id in payload").data) ∧
     (handler cfgNone none emptyEvent draftFn0 false).2 = []) :=
  ⟨by decide,
   c4_no_ticket_id cfgNone none emptyEvent draftFn0 false (by decide) (by decide)
     (by decide) (by decide) (by decide)⟩

/-- C5 counterexample: an empty string at `candidates[0].content.parts[0].text`
is a present text, yet `generateReply` returns the Sorry fallback instead of
the trimmed text (JS `if (!reply)` treats `""` as missing). -/
theorem c5_counterexample :
    pathText c5BadResp = some [] ∧
    generateReply true (ServiceOutcome.success c5BadResp) = sorryGenMsg ∧
    generateReply true (ServiceOutcome.success c5BadResp) ≠ jsTrim [] := by
  refine ⟨by decide, by decide, by decide⟩

/-- C5 (amended): `generateReply` is total and never propagates a failure: on
a thrown service call or a missing API key it returns the fixed error string;
when no non-empty text sits at `candidates[0].content.parts[0].text` (absent,
null or `""`) it returns the fixed Sorry string; otherwise it returns the
service's text trimmed. -/
theorem c5_amended_contract (apiKeySet : Bool) (o : ServiceOutcome) :
    (o = ServiceOutcome.failure → generateReply apiKeySet o = errGenMsg) ∧
    (apiKeySet = false → generateReply apiKeySet o = errGenMsg) ∧
    (∀ d, o = ServiceOutcome.success d → apiKeySet = true →
      (pathText d = none ∨ pathText d = some []) →
      generateReply apiKeySet o = sorryGenMsg) ∧
    (∀ d t, o = ServiceOutcome.success d → apiKeySet = true →
      pathText d = some t → ¬(t = []) →
      generateReply apiKeySet o = jsTrim t) := by
  refine ⟨?_, ?_, ?_, ?_⟩
  · intro h
    subst h
    cases apiKeySet <;> rfl
  · intro h
    subst h
    rfl
  · intro d ho hk hp
    subst ho
    subst hk
    rcases hp with h | h <;> simp [generateReply, h]
  · intro d t ho hk hp ht
    subst ho
    subst hk
    simp [generateReply, hp, ht]

/-- C5 witness: a well-shaped response is trimmed and returned. -/
theorem c5_amended_witness :
    generateReply true (ServiceOutcome.success c5GoodResp) = jsTrim (("  hi  ").data) :=
  (c5_amended_contract true (ServiceOutcome.success c5GoodResp)).2.2.2 c5GoodResp
    (("  hi  ").data) rfl rfl (by decide) (by decide)

/-- C6 counterexample: `"a@b.co and 1a@b.co1"` contains a match of the email
pattern, yet after redaction the output `"[email] and 1a@b.co1"` still
contains the address `a@b.co` (the second occurrence sits between digits and
fails the `\b` boundaries, so the pattern never matches it). -/
theorem c6_counterexample :
    hasMatch emailRE (("a@b.co and 1a@b.co1").data) = true ∧
    redactPII (("a@b.co and 1a@b.co1").data) = ("[email] and 1a@b.co1").data ∧
    (("a@b.co").data) <:+: redactPII (("a@b.co and 1a@b.co1").data) :=
  ⟨by decide, by decide, (includesL_iff _ _).mp (by decide)⟩

/-- C6 witness: the address `a@b.co` standing alone becomes `[email]`. -/
theorem c6_amended_witness :
    redactPII (('a' :: []) ++ '@' :: (('b' :: []) ++ '.' :: ("co").data)) =
      ("[email]").data :=
  redactPII_email_whole 'a' [] 'b' [] (("co").data) (by decide) (by decide) (by decide)
    (by decide) (by decide)

/-- C7 counterexample: the scenario-1 sensitive event is reported successful
(`ok = true`) but the acknowledgment carries no ticket identifier and no
reply preview, only the human-review note. -/
theorem c7_counterexample :
    (handler cfgNone none cexSensitiveEvent draftFn0 false).1.ok = true ∧
    (handler cfgNone none cexSensitiveEvent draftFn0 false).1.ticketId = none ∧
    (handler cfgNone none cexSensitiveEvent draftFn0 false).1.replyPreview = none ∧
    (handler cfgNone none cexSensitiveEvent draftFn0 false).1.note =
      some (("Flagged for human review").data) := by
  refine ⟨by decide, by decide, by decide, by decide⟩

/-- C7 (amended): every authorized request that resolves a ticket id,
classifies Normal, and whose post succeeds is answered with the success
acknowledgment carrying the ticket identifier and a reply preview equal to
the first 600 characters of the body posted to Zendesk; sensitive-path
successes instead return only `{ok:true, note:"Flagged for human review"}`. -/
theorem c7_amended_normal_success (cfg : Config) (hdr : Option (List Char)) (p : Payload)
    (draftFn : List Char → List Char)
    (hauth : verifySecret cfg hdr = true)
    (htid : truthyOpt (resolveTicketId p) = true)
    (hns : isSensitive (redactPII (resolveRawComment p)) = false) :
    ∃ tid body prompt, resolveTicketId p = some tid ∧
      handler cfg hdr p draftFn false =
        (respSuccess tid (body.take 600),
         [Effect.drafterCall prompt, Effect.zendeskPost tid body false]) := by
  obtain ⟨tidv, htv⟩ : ∃ v, resolveTicketId p = some v := by
    cases h : resolveTicketId p with
    | none => rw [h] at htid; exact absurd htid (by decide)
    | some v => exact ⟨v, rfl⟩
  have hv : ¬(verifySecret cfg hdr = false) := by simp [hauth]
  have ht' : ¬(truthyOpt (resolveTicketId p) = false) := by simp [htid]
  refine ⟨tidv, finalBody (draftFn (promptText tidv (redactPII (resolveRawComment p)))),
    promptText tidv (redactPII (resolveRawComment p)), htv, ?_⟩
  rw [handler, if_neg hv, if_neg ht', htv, handlerCore,
    if_neg (by simp [hns] : ¬(isSensitive (redactPII (resolveRawComment p)) = true)),
    if_neg (by simp : ¬((false : Bool) = true))]
  simp [Option.getD_some]

/-- C7 witness: scenario-2 normal event. -/
theorem c7_amended_witness :
    verifySecret cfgNone none = true ∧
    truthyOpt (resolveTicketId normalEvent) = true ∧
    isSensitive (redactPII (resolveRawComment normalEvent)) = false ∧
    (∃ tid body prompt, resolveTicketId normalEvent = some tid ∧
      handler cfgNone none normalEvent draftFn0 false =
        (respSuccess tid (body.take 600),
         [Effect.drafterCall prompt, Effect.zendeskPost tid body false])) :=
  ⟨by decide, by decide, by decide,
   c7_amended_normal_success cfgNone none normalEvent draftFn0 (by decide) (by decide)
     (by decide)⟩

/-- C8: every Zendesk post made by the handler is an internal note: the
`isPublic` flag of any recorded post effect is `false`, on every path. -/
theorem c8_posts_always_internal (cfg : Config) (hdr : Option (List Char)) (p : Payload)
    (draftFn : List Char → List Char) (postThrows : Bool)
    (tid : JsPrim) (body : List Char) (pub : Bool)
    (h : Effect.zendeskPost tid body pub ∈ (handler cfg hdr p draftFn postThrows).2) :
    pub = false := by
  rw [handler] at h
  split at h
  · simp at h
  · split at h
    · simp at h
    · rw [handlerCore] at h
      split at h
      · split at h
        · split at h
          · simp at h
            exact h.2.2
          · simp at h
            exact h.2.2
        · simp at h
      · split at h
        · simp at h
          exact h.2.2
        · simp at h
          exact h.2.2

/-- C8 witness: the normal-path post is internal. -/
theorem c8_witness :
    (Effect.zendeskPost (JsPrim.num 7) (finalBody (("ok").data)) false
       ∈ (handler cfgNone none normalEvent draftFn0 false).2) ∧
    (false : Bool) = false :=
  ⟨by decide,
   c8_posts_always_internal cfgNone none normalEvent draftFn0 false
     (JsPrim.num 7) (finalBody (("ok").data)) false (by decide)⟩

/-- C9: identifier presence is decided by JS truthiness: an event whose only
identifier field holds the number 0 or the empty string is rejected exactly
like an event with no identifier (400, `No ticket id in payload`, nothing
posted, Drafter never called). -/
theorem c9_falsy_id_rejected (cfg : Config) (hdr : Option (List Char)) (p : Payload)
    (draftFn : List Char → List Char) (postThrows : Bool)
    (hauth : verifySecret cfg hdr = true)
    (h1 : p.ticket.bind TicketObj.id = some (JsPrim.num 0) ∨
          p.ticket.bind TicketObj.id = some (JsPrim.str []))
    (h2 : truthyOpt p.ticket_id = false)
    (h3 : truthyOpt p.id = false)
    (h4 : truthyOpt (p.object.bind ObjObj.id) = false) :
    handler cfg hdr p draftFn postThrows = (respNoTicket, []) := by
  have h1' : truthyOpt (p.ticket.bind TicketObj.id) = false := by
    rcases h1 with h | h <;> rw [h] <;> decide
  have htid : truthyOpt (resolveTicketId p) = false := by
    rw [resolveTicketId, truthy_jsOr, truthy_jsOr, truthy_jsOr, h1', h2, h3, h4]
    rfl
  have hv : ¬(verifySecret cfg hdr = false) := by simp [hauth]
  rw [handler, if_neg hv, if_pos htid]

/-- C9 witness: ticket id present but equal to the number 0. -/
theorem c9_witness :
    zeroIdEvent.ticket.bind TicketObj.id = some (JsPrim.num 0) ∧
    handler cfgNone none zeroIdEvent draftFn0 false = (respNoTicket, []) :=
  ⟨by decide,
   c9_falsy_id_rejected cfgNone none zeroIdEvent draftFn0 false (by decide)
     (Or.inl (by decide)) (by decide) (by decide) (by decide)⟩

/-- C10 witness: five hyphens become `[phone]`. -/
theorem c10_witness :
    5 ≤ (("-----").data).length ∧ (("-----").data).length ≤ 15 ∧
    redactPII (("-----").data) = ("[phone]").data :=
  ⟨by decide, by decide,
   redactPII_sep_run (("-----").data) (by decide) (by decide) (by decide)⟩

/-- C10 counterexample: the text of twenty `1`s followed by the maximal
six-character run `------` is redacted to `[phone]----`: the first match eats
the digits plus only two run characters (the `{5,15}` cap), the four
remaining run characters are too short to match, and the run is not replaced
by `[phone]` as a unit. -/
theorem c10_counterexample :
    redactPII (("11111111111111111111------").data) = ("[phone]----").data ∧
    (("----").data) <:+: redactPII (("11111111111111111111------").data) :=
  ⟨by decide, (includesL_iff _ _).mp (by decide)⟩
